import Mathlib

/-!
Verification of the untron-intents relayer against its design document.

The relevant Python modules are embedded shallowly:
  * `src/relayer/utils.py` — profitability gate, Tron address helpers;
  * `src/relayer/polling/blockchain_listener.py` — the Intent Processor
    (transfer-to-receiver path and order-created path) and the per-chain
    polling loop's chunk step;
  * `src/relayer/endpoints.py` — the /resolve handler and case-fix cache.

Modelling conventions:
  * byte strings are `List Nat` (each element a byte value);
  * Python strings that only carry ASCII payloads (Tron addresses,
    hex renderings) are Lean `String`s or byte lists as convenient;
  * fallible external calls (chain RPC, the Tron facade, the base58
    library, the case-fix subprocess) are environment parameters whose
    `Option`/`Except` result encodes success, a falsy failure result, or
    a raised exception, exactly as the call sites of the source observe
    them;
  * the SQLAlchemy session is explicit state: the `processed_intents`
    table is a list of rows, `session.get` by primary key is a `find?`
    on the key column, `session.add` + `commit` is an append, and an
    attribute mutation + `commit` is an in-place map.
-/

namespace UntronIntents

/-- Byte strings (Python `bytes`) as lists of byte values. -/
abbrev Bytes := List Nat

/-- Lower-case hex digit for a nibble, as produced by Python `bytes.hex()`. -/
def hexDigitChar (n : Nat) : Char :=
  if n < 10 then Char.ofNat (48 + n) else Char.ofNat (87 + n)

/-- Two lower-case hex digits of one byte. -/
def byteToHexChars (b : Nat) : List Char :=
  [hexDigitChar (b / 16), hexDigitChar (b % 16)]

/-- Python `bytes.hex()`: lower-case hex rendering of a byte string. -/
def bytesToHex (bs : Bytes) : String :=
  ⟨bs.foldr (fun b acc => byteToHexChars b ++ acc) []⟩

/-- Python `int.from_bytes(bs)` with the default big-endian byte order. -/
def intFromBytes (bs : Bytes) : Nat :=
  bs.foldl (fun acc b => acc * 256 + b) 0

/-- ASCII string to its byte values (the payloads here are ASCII). -/
def strBytes (s : String) : Bytes :=
  s.toList.map Char.toNat

/-- ASCII lower-casing of one character (Python `str.lower()` on the
ASCII address/hex strings this system compares). -/
def charLower (c : Char) : Char :=
  if 65 ≤ c.toNat ∧ c.toNat ≤ 90 then Char.ofNat (c.toNat + 32) else c

/-- ASCII `str.lower()` on a whole string. -/
def strLower (s : String) : String :=
  ⟨s.data.map charLower⟩

/-! ## Chain configuration and the profitability gate (`src/relayer/utils.py`) -/

/-- One entry of a chain's `tokens` map in `config.json`:
`{address, static_fee, percentage_fee_bps}` (the numeric fields are read
through `int(...)` at the use site, hence `Nat`). -/
structure TokenConfig where
  address : String
  static_fee : Nat
  percentage_fee_bps : Nat
deriving DecidableEq

/-- The part of a chain's configuration that `is_profitable` reads:
its name and the symbol-keyed token map (association list, preserving the
dict's iteration order). -/
structure ChainConfig where
  name : String
  tokens : List (String × TokenConfig)
deriving DecidableEq

/-- The token lookup loop of `is_profitable` (utils.py lines 28-34): the
first configured token whose `address` equals the queried address
case-insensitively. -/
def findTokenConfig (chain : ChainConfig) (token_address : String) : Option TokenConfig :=
  (chain.tokens.find? (fun st => strLower st.2.address == strLower token_address)).map
    (fun st => st.2)

/-- `is_profitable(chain, token_address, input_amount, output_amount)`
from `src/relayer/utils.py` lines 15-63.  Pure apart from logging: the
fee is `static_fee + output_amount * percentage_fee_bps // 10000` in
integer arithmetic, and an unknown token is never profitable. -/
def is_profitable (chain : ChainConfig) (token_address : String)
    (input_amount output_amount : Nat) : Bool :=
  match findTokenConfig chain token_address with
  | none => false
  | some token_config =>
    decide (output_amount +
      (token_config.static_fee + output_amount * token_config.percentage_fee_bps / 10000)
      ≤ input_amount)

/-! ## Tron address helpers (`src/relayer/utils.py` lines 103-121) -/

/-- `decode_tron_address` from utils.py.  The base58 library call
`base58.b58decode_check` is an environment parameter; its `Except.error`
value models the library raising.  The source wraps the call in a
catch-all `try`/`except` that logs and returns `None`, so the embedded
function always returns `Except.ok`: it never raises. -/
def decode_tron_address (b58decode_check : String → Except Unit Bytes)
    (tron_address : String) : Except Unit (Option Bytes) :=
  match b58decode_check tron_address with
  | Except.ok bs => Except.ok (some (bs.drop 1))
  | Except.error _ => Except.ok none

/-- `validate_tron_address` from utils.py: reject non-strings (typing
makes that vacuous here) and lengths outside `range(25, 35)`, then `try`
to call `decode_tron_address` — the `Except.error` arm is the source's
`except` branch returning `False`. -/
def validate_tron_address (b58decode_check : String → Except Unit Bytes)
    (tron_address : String) : Bool :=
  if ¬ (25 ≤ tron_address.length ∧ tron_address.length < 35) then false
  else
    match decode_tron_address b58decode_check tron_address with
    | Except.ok _ => true
    | Except.error _ => false

/-! ## The ledger (`src/relayer/database/models.py`) -/

/-- The `source` discriminator of a `ProcessedIntent` row. -/
inductive IntentSource where
  | receiver
  | order
deriving DecidableEq

/-- A `processed_intents` row (models.py lines 25-39); `eth_tx_hash` is
the primary key, timestamps are not modelled. -/
structure ProcessedIntent where
  eth_tx_hash : String
  tron_tx_hash : Option String
  amount : String
  token : String
  source : IntentSource
  is_claimed : Bool
deriving DecidableEq

/-- The `processed_intents` table. -/
abbrev Ledger := List ProcessedIntent

/-- `session.get(ProcessedIntent, key)`: primary-key lookup. -/
def ledgerGet (l : Ledger) (key : String) : Option ProcessedIntent :=
  l.find? (fun r => r.eth_tx_hash == key)

/-- `row.is_claimed = True` followed by `commit()` on the row keyed by
`key`: set the flag in place, keys untouched. -/
def ledgerSetClaimed (l : Ledger) (key : String) : Ledger :=
  l.map (fun r => if r.eth_tx_hash == key then { r with is_claimed := true } else r)

/-- A `receivers` row (models.py lines 7-14). -/
structure Receiver where
  tron_address : String
  eth_address : String
deriving DecidableEq

/-! ## The Intent Processor (`src/relayer/polling/blockchain_listener.py`) -/

/-- One dispatched Tron payout: the arguments of a `tron.send_usdt` call. -/
structure TronPayout where
  to_address : String
  amount : Nat
deriving DecidableEq

/-- The outbound chain calls a processing run dispatched, in order of
kind: Tron payouts, factory `intron` calls, `claim` calls. -/
structure Effects where
  payouts : List TronPayout
  introns : List Bytes
  claims : List Bytes
deriving DecidableEq

/-- No outbound calls. -/
def noEffects : Effects := ⟨[], [], []⟩

/-- Result of one processing run: the ledger afterwards, the returned
boolean (`none` when an exception escaped to the poll loop's per-log
handler), and the dispatched outbound calls. -/
structure ProcessResult where
  ledger : Ledger
  retval : Option Bool
  effects : Effects
deriving DecidableEq

/-- A raw `Transfer` log as `process_transfer_event` reads it:
`topics`, `data`, the emitting contract `address`, `transactionHash`. -/
structure TransferEventData where
  topics : List Bytes
  data : Bytes
  address : String
  transactionHash : Bytes
deriving DecidableEq

/-- The external world of the transfer path: the base58 library,
`ethereum.recommended_output_amount` (`none` = the RPC call raised,
which the source re-raises), `tron.send_usdt` (`none` = falsy result:
the facade catches its own errors), and `ethereum.call_intron` observed
through the listener's `try`/`except` plus falsy-receipt check (`some`
carries the receipt's transaction hash hex). -/
structure TransferEnv where
  b58decode_check : String → Except Unit Bytes
  recommended_output_amount : Nat → Option Nat
  send_usdt : String → Nat → Option String
  call_intron : Bytes → Option String

/-- `to_address = "0x" + event_data["topics"][2][12:].hex()` (line 25). -/
def transfer_to_address (event_data : TransferEventData) : String :=
  "0x" ++ bytesToHex ((event_data.topics.getD 2 []).drop 12)

/-- `process_transfer_event` (blockchain_listener.py lines 15-94).
The `Receiver.eth_address.ilike(to_address)` filter is case-insensitive
equality (hex addresses contain no SQL wildcards).  Note that the
idempotency lookup key is the transfer's own transaction hash while the
inserted row is keyed by the `intron` receipt's transaction hash. -/
def process_transfer_event (receivers : List Receiver) (env : TransferEnv)
    (event_data : TransferEventData) (ledger : Ledger) : ProcessResult :=
  match receivers.find?
      (fun r => strLower r.eth_address == strLower (transfer_to_address event_data)) with
  | none => ⟨ledger, some false, noEffects⟩
  | some receiver =>
    match ledgerGet ledger (bytesToHex event_data.transactionHash) with
    | some _ => ⟨ledger, some true, noEffects⟩
    | none =>
      match env.recommended_output_amount (intFromBytes event_data.data) with
      | none => ⟨ledger, none, noEffects⟩
      | some recommended_output =>
        match env.send_usdt receiver.tron_address recommended_output with
        | none => ⟨ledger, some false, ⟨[⟨receiver.tron_address, recommended_output⟩], [], []⟩⟩
        | some tx_hash =>
          match decode_tron_address env.b58decode_check receiver.tron_address with
          | Except.error _ =>
            ⟨ledger, none, ⟨[⟨receiver.tron_address, recommended_output⟩], [], []⟩⟩
          | Except.ok none =>
            ⟨ledger, some false, ⟨[⟨receiver.tron_address, recommended_output⟩], [], []⟩⟩
          | Except.ok (some tron_bytes) =>
            if tron_bytes.isEmpty then
              ⟨ledger, some false, ⟨[⟨receiver.tron_address, recommended_output⟩], [], []⟩⟩
            else
              match env.call_intron tron_bytes with
              | none =>
                ⟨ledger, some false,
                  ⟨[⟨receiver.tron_address, recommended_output⟩], [tron_bytes], []⟩⟩
              | some receipt_tx_hash =>
                ⟨ledger ++ [{ eth_tx_hash := receipt_tx_hash
                              tron_tx_hash := some tx_hash
                              amount := toString (intFromBytes event_data.data)
                              token := event_data.address
                              source := IntentSource.receiver
                              is_claimed := false }],
                  some true,
                  ⟨[⟨receiver.tron_address, recommended_output⟩], [tron_bytes], []⟩⟩

/-- The decoded `OrderCreated` payload
(`order = (refundBeneficiary, token, inputAmount, to, outputAmount, deadline)`;
only the fields the processor reads are kept, `orderId` alongside). -/
structure Order where
  orderId : Bytes
  token : String
  inputAmount : Nat
  outputAmount : Nat
  /-- the order's `to` field (`to` is a reserved token in this Lean setup) -/
  toAddr : Bytes
  deadline : Nat
deriving DecidableEq

/-- An `OrderCreated` log after `ethereum.decode_order_created_event`
(the web3 ABI decoding itself is library code; the event carries its
decoded content). -/
structure OrderCreatedEventData where
  transactionHash : Bytes
  order : Order
deriving DecidableEq

/-- The external world of the order path: the base58 encoder used by
`tron.eth_address_to_tron`, `tron.send_usdt` as above, and
`ethereum.claim_order` (which catches its own errors and returns the
claim transaction hash or `None`). -/
structure OrderEnv where
  b58encode_check : Bytes → String
  send_usdt : String → Nat → Option String
  claim_order : Bytes → Option String

/-- `tron.eth_address_to_tron`: prefix the network byte `0x41` and
base58-check-encode. -/
def eth_address_to_tron (b58encode_check : Bytes → String) (eth_address : Bytes) : String :=
  b58encode_check (65 :: eth_address)

/-- `process_order_created_event` (blockchain_listener.py lines 96-169).
The idempotency key is the triggering transaction's hash; an existing
row with `source = receiver` takes the claim-reconciliation branch, an
existing row with `source = order` is a no-op; a new order is gated by
`is_profitable`, paid, recorded, then claimed. -/
def process_order_created_event (chain : ChainConfig) (env : OrderEnv)
    (event_data : OrderCreatedEventData) (ledger : Ledger) : ProcessResult :=
  match ledgerGet ledger (bytesToHex event_data.transactionHash) with
  | some existing =>
    match existing.source with
    | IntentSource.receiver =>
      if existing.is_claimed then ⟨ledger, some true, noEffects⟩
      else
        match env.claim_order event_data.order.orderId with
        | some _ =>
          ⟨ledgerSetClaimed ledger (bytesToHex event_data.transactionHash), some true,
            ⟨[], [], [event_data.order.orderId]⟩⟩
        | none => ⟨ledger, some true, ⟨[], [], [event_data.order.orderId]⟩⟩
    | IntentSource.order => ⟨ledger, some true, noEffects⟩
  | none =>
    if ¬ (is_profitable chain event_data.order.token
        event_data.order.inputAmount event_data.order.outputAmount = true) then
      ⟨ledger, some false, noEffects⟩
    else
      match env.send_usdt (eth_address_to_tron env.b58encode_check event_data.order.toAddr)
          event_data.order.outputAmount with
      | none =>
        ⟨ledger, some false,
          ⟨[⟨eth_address_to_tron env.b58encode_check event_data.order.toAddr,
             event_data.order.outputAmount⟩], [], []⟩⟩
      | some tx_hash =>
        match env.claim_order event_data.order.orderId with
        | some _ =>
          ⟨ledgerSetClaimed
              (ledger ++ [{ eth_tx_hash := bytesToHex event_data.transactionHash
                            tron_tx_hash := some tx_hash
                            amount := toString event_data.order.inputAmount
                            token := event_data.order.token
                            source := IntentSource.order
                            is_claimed := false }])
              (bytesToHex event_data.transactionHash),
            some true,
            ⟨[⟨eth_address_to_tron env.b58encode_check event_data.order.toAddr,
               event_data.order.outputAmount⟩], [], [event_data.order.orderId]⟩⟩
        | none =>
          ⟨ledger ++ [{ eth_tx_hash := bytesToHex event_data.transactionHash
                        tron_tx_hash := some tx_hash
                        amount := toString event_data.order.inputAmount
                        token := event_data.order.token
                        source := IntentSource.order
                        is_claimed := false }],
            some false,
            ⟨[⟨eth_address_to_tron env.b58encode_check event_data.order.toAddr,
               event_data.order.outputAmount⟩], [], [event_data.order.orderId]⟩⟩

/-! ## The polling loop's chunk step
(`poll_blockchain_events`, blockchain_listener.py lines 193-281) -/

/-- The external world of one chunk iteration: the two `get_logs` calls
(`none` = the call raised — caught in place and replaced by `[]`), and
whether the rest of the `try` body (session acquisition, dispatching,
`save_last_block`) ran to completion (`body_ok = false` = it raised, so
the handler at lines 272-275 sleeps and retries the same chunk).
Per-log processing failures are caught at lines 256-258/263-265 and do
not abort the body, so they are part of `body_ok = true`. -/
structure ChunkEnv where
  order_fetch : Option (List Nat)
  transfer_fetch : Option (List Nat)
  body_ok : Bool
deriving DecidableEq

/-- In-memory loop state of the chunk loop: the persisted watermark
`last_block` and the cursor `from_block`. -/
structure ChunkState where
  last_block : Nat
  from_block : Nat
deriving DecidableEq

/-- Result of one chunk iteration: the new loop state and the logs that
were dispatched to the Intent Processor (order logs first, then
transfer logs — the latter only fetched when receivers are known). -/
structure ChunkStepResult where
  state : ChunkState
  dispatched : List Nat
deriving DecidableEq

/-- One iteration of the inner chunk loop (lines 207-275).
`to_block = min(from_block + chunk_size - 1, current_block)`; on a
successful body the logs (with a failed fetch silently replaced by the
empty list) are dispatched and the watermark is set and persisted to
`to_block`; on a body failure nothing moves. -/
def poll_chunk_step (receivers_known : Bool) (env : ChunkEnv)
    (s : ChunkState) (current_block chunk_size : Nat) : ChunkStepResult :=
  if env.body_ok then
    { state := { last_block := min (s.from_block + chunk_size - 1) current_block,
                 from_block := min (s.from_block + chunk_size - 1) current_block + 1 },
      dispatched := env.order_fetch.getD [] ++
        (if receivers_known then env.transfer_fetch.getD [] else []) }
  else
    { state := s, dispatched := [] }

/-! ## The /resolve endpoint (`src/relayer/endpoints.py`) -/

/-- Python `str.lstrip(chars)` over an explicit character list: remove
the longest leading run of characters that are members of `chars`. -/
def lstripChars (chars : List Char) (s : List Char) : List Char :=
  match s with
  | [] => []
  | c :: cs => if c ∈ chars then lstripChars chars cs else c :: cs

/-- Value of one hex digit, upper or lower case. -/
def hexVal (c : Char) : Option Nat :=
  if 48 ≤ c.toNat ∧ c.toNat ≤ 57 then some (c.toNat - 48)
  else if 97 ≤ c.toNat ∧ c.toNat ≤ 102 then some (c.toNat - 87)
  else if 65 ≤ c.toNat ∧ c.toNat ≤ 70 then some (c.toNat - 55)
  else none

/-- Python `bytes.fromhex` on whitespace-free input: consume hex digits
in pairs; an odd length or a non-hex character raises (`none`).  (The
whitespace skipping of `bytes.fromhex` is not modelled; the handler's
inputs carry none.) -/
def bytesFromHex (s : List Char) : Option Bytes :=
  match s with
  | [] => some []
  | [_] => none
  | a :: b :: rest =>
    match hexVal a, hexVal b, bytesFromHex rest with
    | some x, some y, some bs => some ((x * 16 + y) :: bs)
    | _, _, _ => none

/-- `bytes.fromhex(domain.lstrip("0x"))` (endpoints.py line 76): the
source strips every leading `'0'` and `'x'` character, not just the
two-character hex marker. -/
def decodeDomainHex (s : String) : Option Bytes :=
  bytesFromHex (lstripChars ['0', 'x'] s.toList)

/-- `subdomain_length = domain[0]; domain[1:subdomain_length+1]`
(endpoints.py lines 86-87): the length byte and the subdomain bytes as
the handler extracts them. -/
def extract_subdomain (domain : Bytes) : Nat × Bytes :=
  (domain.headD 0, (domain.drop 1).take (domain.headD 0))

/-- A `case_fixes` row (models.py lines 16-23), addresses as ASCII byte
lists as they travel through the wire payload. -/
structure CaseFixRow where
  lowercase : Bytes
  original : Bytes
deriving DecidableEq

/-- ASCII lower-casing of one byte (`str.lower()` on the ASCII
subdomain). -/
def byteLower (c : Nat) : Nat :=
  if 65 ≤ c ∧ c ≤ 90 then c + 32 else c

/-- Result of `process_case_fix`: the returned address (`[]` is Python's
falsy `""` failure), the cache table afterwards, and whether the
external case-fix subprocess was invoked. -/
structure CaseFixResult where
  result : Bytes
  cache : List CaseFixRow
  invoked : Bool
deriving DecidableEq

/-- `process_case_fix` (endpoints.py lines 19-54): a cached row is
returned without running the binary; otherwise the binary runs (under
the semaphore) and a truthy result is cached and returned, a falsy one
is not cached. -/
def process_case_fix (cache : List CaseFixRow) (binary : Bytes → Bytes)
    (lowercased_tron_address : Bytes) : CaseFixResult :=
  match cache.find? (fun r => r.lowercase == lowercased_tron_address) with
  | some case_fix => ⟨case_fix.original, cache, false⟩
  | none =>
    if (binary lowercased_tron_address).isEmpty then
      ⟨[], cache, true⟩
    else
      ⟨binary lowercased_tron_address,
        cache ++ [⟨lowercased_tron_address, binary lowercased_tron_address⟩], true⟩

/-- How the resolve handler terminates: a success payload (the bytes
whose hex goes into the response's `data`), a 500 (case-fix failure or
internal error), or a 400 for an undecodable fixed Tron address. -/
inductive ResolveOutcome where
  | success (payload : Bytes)
  | errServer
  | errInvalidAddress
deriving DecidableEq

/-- The external world of the resolve handler: the case-fix subprocess
(through `run_case_fix_binary`; `[]` = no usable output), the base58
library check-decode applied to the fixed address, and
`ethereum.generate_receiver_address` (`none` = the RPC call raised,
caught by the outer handler as a 500). -/
structure ResolveEnv where
  binary : Bytes → Bytes
  b58decode_check : Bytes → Except Unit Bytes
  generate_receiver_address : Bytes → Option String

/-- Result of the resolve handler on one request. -/
structure ResolveResult where
  outcome : ResolveOutcome
  cache : List CaseFixRow
  invoked : Bool
deriving DecidableEq

/-- The data path of `resolve_handler` (endpoints.py lines 85-166) after
the hex decode, on the decoded `domain` buffer: extract the length byte
and subdomain, lower-case it, run `process_case_fix`, check-decode the
fixed address, derive the receiver address, and re-encode the response
as `bytes([subdomain_length]) + fixed.encode() + domain[subdomain_length+1:]`.
An empty `domain` hits `domain[0]` (IndexError, outer catch, 500).
The `Receiver` upsert does not touch the payload and is not tracked. -/
def resolve_domain (env : ResolveEnv) (cache : List CaseFixRow)
    (domain : Bytes) : ResolveResult :=
  match domain with
  | [] => ⟨ResolveOutcome.errServer, cache, false⟩
  | subdomain_length :: rest =>
    if (process_case_fix cache env.binary
        ((rest.take subdomain_length).map byteLower)).result.isEmpty then
      ⟨ResolveOutcome.errServer,
        (process_case_fix cache env.binary ((rest.take subdomain_length).map byteLower)).cache,
        (process_case_fix cache env.binary
          ((rest.take subdomain_length).map byteLower)).invoked⟩
    else
      match env.b58decode_check (process_case_fix cache env.binary
          ((rest.take subdomain_length).map byteLower)).result with
      | Except.error _ =>
        ⟨ResolveOutcome.errInvalidAddress,
          (process_case_fix cache env.binary
            ((rest.take subdomain_length).map byteLower)).cache,
          (process_case_fix cache env.binary
            ((rest.take subdomain_length).map byteLower)).invoked⟩
      | Except.ok raw_bytes =>
        match env.generate_receiver_address (raw_bytes.drop 1) with
        | none =>
          ⟨ResolveOutcome.errServer,
            (process_case_fix cache env.binary
              ((rest.take subdomain_length).map byteLower)).cache,
            (process_case_fix cache env.binary
              ((rest.take subdomain_length).map byteLower)).invoked⟩
        | some _ =>
          ⟨ResolveOutcome.success
              (subdomain_length ::
                (process_case_fix cache env.binary
                  ((rest.take subdomain_length).map byteLower)).result
                ++ rest.drop subdomain_length),
            (process_case_fix cache env.binary
              ((rest.take subdomain_length).map byteLower)).cache,
            (process_case_fix cache env.binary
              ((rest.take subdomain_length).map byteLower)).invoked⟩

/-! ## Counting ledger rows by primary key -/

/-- Number of ledger rows carrying a given `eth_tx_hash` (in the real
database the primary-key constraint keeps this at most 1). -/
def ledgerCountKey (l : Ledger) (key : String) : Nat :=
  l.countP (fun r => r.eth_tx_hash == key)

/-! ## Concrete scenario data used by counterexamples and witnesses -/

/-- A known receiver at the all-zero EVM address (C1 scenario). -/
def c1Receiver : Receiver :=
  ⟨"TReceiverAddr", "0x0000000000000000000000000000000000000000"⟩

/-- A `Transfer` log of 1,000,000 units to `c1Receiver`
(`data = 0x0f4240`), transaction hash byte `0xbb` (C1 scenario). -/
def c1Event : TransferEventData :=
  { topics := [[], [], List.replicate 32 0]
    data := [15, 66, 64]
    address := "0xToken"
    transactionHash := [187] }

/-- First-run external world of the C1 transfer scenario: every call
succeeds, the `intron` receipt hash is `"cc"`. -/
def c1EnvA : TransferEnv :=
  { b58decode_check := fun _ => Except.ok (List.replicate 21 1)
    recommended_output_amount := fun _ => some 995000
    send_usdt := fun _ _ => some "trontxa"
    call_intron := fun _ => some "cc" }

/-- Replay-run external world of the C1 transfer scenario: the fresh
Tron payout and `intron` transactions get new hashes. -/
def c1EnvB : TransferEnv :=
  { b58decode_check := fun _ => Except.ok (List.replicate 21 1)
    recommended_output_amount := fun _ => some 995000
    send_usdt := fun _ _ => some "trontxb"
    call_intron := fun _ => some "dd" }

/-- Chain with one configured token, flat fee 50, no bps fee
(C1/C2 order scenarios, spec scenario 3). -/
def c1Chain : ChainConfig := ⟨"base", [("usdt", ⟨"0xa", 50, 0⟩)]⟩

/-- An `OrderCreated` log: input 1000, output 900 of token `0xa`,
transaction hash byte `0xaa` (C1 order scenario). -/
def c1OrderEvent : OrderCreatedEventData :=
  ⟨[170], ⟨[1, 2], "0xa", 1000, 900, List.replicate 20 3, 0⟩⟩

/-- First-run external world of the C1 order scenario: all succeed. -/
def c1OrderEnvA : OrderEnv :=
  ⟨fun _ => "TDest", fun _ _ => some "tronpay1", fun _ => some "claimtx1"⟩

/-- Replay-run external world of the C1 order scenario. -/
def c1OrderEnvB : OrderEnv :=
  ⟨fun _ => "TDest", fun _ _ => some "tronpay2", fun _ => some "claimtx2"⟩

/-- Chain of the C2 scenario (same shape as spec scenario 5). -/
def c2Chain : ChainConfig := ⟨"base", [("usdt", ⟨"0xa", 50, 0⟩)]⟩

/-- `OrderCreated` log of the C2 scenario, transaction hash `0xab`. -/
def c2OrderEvent : OrderCreatedEventData :=
  ⟨[171], ⟨[9, 9], "0xa", 1000, 900, List.replicate 20 4, 0⟩⟩

/-- C2 first run: the Tron payout succeeds, the claim call fails. -/
def c2EnvFail : OrderEnv :=
  ⟨fun _ => "TDest", fun _ _ => some "tronpayc2", fun _ => none⟩

/-- C2 replay run: a claim would now succeed if it were attempted. -/
def c2EnvOk : OrderEnv :=
  ⟨fun _ => "TDest", fun _ _ => some "tronpayc2b", fun _ => some "claimc2"⟩

/-- C3 witness world: the transfer-path payout fails. -/
def c3EnvPayoutFail : TransferEnv :=
  { b58decode_check := fun _ => Except.ok (List.replicate 21 1)
    recommended_output_amount := fun _ => some 995000
    send_usdt := fun _ _ => none
    call_intron := fun _ => some "ee" }

/-- C5 counterexample world: the `OrderCreated` fetch raised (so its
logs are silently replaced by `[]`) but the body completed. -/
def c5Env : ChunkEnv := ⟨none, some [], true⟩

/-- C5 witness world: both fetches succeed and the body completes. -/
def c5EnvOk : ChunkEnv := ⟨some [5], some [7], true⟩

/-- Lower-cased Tron address of spec scenario 1 (C7 witness). -/
def c7Lower : Bytes := strBytes "tevr7jcirofduu2wtqsmwlbr1m132a3s5j"

/-- Canonical-case Tron address of spec scenario 1 (C7 witness). -/
def c7Canonical : Bytes := strBytes "TEVr7jCiRofduU2wtQsMWLBr1m132A3S5j"

/-- Seeded `CaseFix` row of spec scenario 1 (C7 witness). -/
def c7Row : CaseFixRow := ⟨c7Lower, c7Canonical⟩

/-- C7 witness world: the subprocess would fail if invoked (it must not
be), the base58 check-decode and receiver derivation succeed. -/
def c7Env : ResolveEnv :=
  ⟨fun _ => [], fun _ => Except.ok (List.replicate 21 0), fun _ => some "0xreceiver"⟩

/-- Wire payload after the length byte in the C7 witness: the
lower-cased address followed by a 3-byte suffix. -/
def c7Rest : Bytes := c7Lower ++ [3, 97, 98, 99]

/-- Chain of the C4 witness, one configured token. -/
def c4Chain : ChainConfig := ⟨"base", [("usdt", ⟨"0xAbC", 50, 0⟩)]⟩

/-- Chain of the C6 witness: flat fee 50, 100 bps. -/
def c6Chain : ChainConfig := ⟨"base", [("usdt", ⟨"0xa", 50, 100⟩)]⟩

/-! ## Helper lemmas -/

lemma is_profitable_eq_of_find {chain : ChainConfig} {token_address : String}
    {tc : TokenConfig} (htc : findTokenConfig chain token_address = some tc)
    (input_amount output_amount : Nat) :
    is_profitable chain token_address input_amount output_amount =
      decide (output_amount +
        (tc.static_fee + output_amount * tc.percentage_fee_bps / 10000) ≤ input_amount) := by
  unfold is_profitable
  rw [htc]

lemma is_profitable_eq_of_find_none {chain : ChainConfig} {token_address : String}
    (htc : findTokenConfig chain token_address = none)
    (input_amount output_amount : Nat) :
    is_profitable chain token_address input_amount output_amount = false := by
  unfold is_profitable
  rw [htc]

lemma ledgerGet_append_left {l1 : Ledger} {key : String} {row : ProcessedIntent}
    (l2 : Ledger) (h : ledgerGet l1 key = some row) :
    ledgerGet (l1 ++ l2) key = some row := by
  unfold ledgerGet at h ⊢
  induction l1 with
  | nil => cases h
  | cons a t ih =>
    rw [List.cons_append]
    cases hp : a.eth_tx_hash == key with
    | true =>
      simp only [List.find?, hp] at h ⊢
      exact h
    | false =>
      simp only [List.find?, hp] at h ⊢
      exact ih h

lemma ledgerGet_append_none {l1 : Ledger} {key : String}
    (l2 : Ledger) (h : ledgerGet l1 key = none) :
    ledgerGet (l1 ++ l2) key = ledgerGet l2 key := by
  unfold ledgerGet at h ⊢
  induction l1 with
  | nil => rfl
  | cons a t ih =>
    rw [List.cons_append]
    cases hp : a.eth_tx_hash == key with
    | true =>
      simp only [List.find?, hp] at h
      cases h
    | false =>
      simp only [List.find?, hp] at h ⊢
      exact ih h

lemma ledgerGet_singleton {row : ProcessedIntent} {key : String}
    (h : (row.eth_tx_hash == key) = true) :
    ledgerGet [row] key = some row := by
  unfold ledgerGet
  simp only [List.find?, h]

lemma ledgerSetClaimed_append (l1 l2 : Ledger) (key : String) :
    ledgerSetClaimed (l1 ++ l2) key = ledgerSetClaimed l1 key ++ ledgerSetClaimed l2 key := by
  simp [ledgerSetClaimed]

lemma ledgerSetClaimed_of_get_none {key : String} :
    ∀ {l : Ledger}, ledgerGet l key = none → ledgerSetClaimed l key = l := by
  intro l
  induction l with
  | nil => intro _; rfl
  | cons a t ih =>
    intro h
    have hall := List.find?_eq_none.mp h
    have hpa : ¬((a.eth_tx_hash == key) = true) := hall a (List.mem_cons_self a t)
    have ht : ledgerGet t key = none :=
      List.find?_eq_none.mpr (fun x hx => hall x (List.mem_cons_of_mem a hx))
    show (if a.eth_tx_hash == key then { a with is_claimed := true } else a)
        :: ledgerSetClaimed t key = a :: t
    rw [if_neg hpa, ih ht]

lemma ledgerSetClaimed_singleton {row : ProcessedIntent} {key : String}
    (h : (row.eth_tx_hash == key) = true) :
    ledgerSetClaimed [row] key = [{ row with is_claimed := true }] := by
  unfold ledgerSetClaimed
  simp only [List.map_cons, List.map_nil]
  rw [if_pos h]

lemma ledgerCountKey_append (l1 l2 : Ledger) (key : String) :
    ledgerCountKey (l1 ++ l2) key = ledgerCountKey l1 key + ledgerCountKey l2 key := by
  simp [ledgerCountKey, List.countP_append]

lemma ledgerCountKey_of_get_none {l : Ledger} {key : String}
    (h : ledgerGet l key = none) : ledgerCountKey l key = 0 := by
  unfold ledgerCountKey
  rw [List.countP_eq_zero]
  exact List.find?_eq_none.mp h

lemma ledgerCountKey_singleton_pos {row : ProcessedIntent} {key : String}
    (h : (row.eth_tx_hash == key) = true) :
    ledgerCountKey [row] key = 1 := by
  simp [ledgerCountKey, List.countP_cons, h]

lemma ledgerCountKey_setClaimed (l : Ledger) (key key' : String) :
    ledgerCountKey (ledgerSetClaimed l key) key' = ledgerCountKey l key' := by
  unfold ledgerCountKey ledgerSetClaimed
  rw [List.countP_map]
  apply List.countP_congr
  intro a _
  by_cases h : (a.eth_tx_hash == key) = true <;> simp [h, Function.comp]

lemma ledgerGet_ne_none_of_mem {l : Ledger} {x : ProcessedIntent} (hx : x ∈ l) :
    ledgerGet l x.eth_tx_hash ≠ none := by
  intro h
  exact List.find?_eq_none.mp h x hx (beq_self_eq_true _)

lemma setClaimed_key_preserved (x : ProcessedIntent) (key : String) :
    (if x.eth_tx_hash == key then { x with is_claimed := true } else x).eth_tx_hash
      = x.eth_tx_hash := by
  by_cases h : (x.eth_tx_hash == key) = true <;> simp [h]

lemma ledgerSetClaimed_append_fresh {l : Ledger} {key : String} {row : ProcessedIntent}
    (h : ledgerGet l key = none) (hbeq : (row.eth_tx_hash == key) = true) :
    ledgerSetClaimed (l ++ [row]) key = l ++ [{ row with is_claimed := true }] := by
  rw [ledgerSetClaimed_append, ledgerSetClaimed_of_get_none h, ledgerSetClaimed_singleton hbeq]

lemma bool_eq_false_of_not_true {b : Bool} (h : ¬(b = true)) : b = false := by
  cases b
  · rfl
  · exact absurd rfl h

/-- A ledger row keyed by the triggering transaction hash makes the
order path return without touching anything when its `source` is
`order`. -/
lemma order_replay_noop (chain : ChainConfig) (env : OrderEnv)
    (ev : OrderCreatedEventData) (l : Ledger) (row : ProcessedIntent)
    (h : ledgerGet l (bytesToHex ev.transactionHash) = some row)
    (hs : row.source = IntentSource.order) :
    process_order_created_event chain env ev l = ⟨l, some true, noEffects⟩ := by
  unfold process_order_created_event
  simp only [h, hs]

/-- The transfer path never changes the ledger or dispatches a call when
a row keyed by the triggering transaction hash already exists. -/
lemma transfer_replay_stop (receivers : List Receiver) (env : TransferEnv)
    (ev : TransferEventData) (l : Ledger) (row : ProcessedIntent)
    (h : ledgerGet l (bytesToHex ev.transactionHash) = some row) :
    (process_transfer_event receivers env ev l).ledger = l ∧
    (process_transfer_event receivers env ev l).effects = noEffects := by
  unfold process_transfer_event
  split
  · exact ⟨rfl, rfl⟩
  · simp [h]

/-- Exhaustive outcome analysis of the transfer path: either the ledger
is unchanged, or every external step succeeded and exactly the new
receiver-sourced row was appended. -/
lemma process_transfer_event_spec (receivers : List Receiver) (env : TransferEnv)
    (ev : TransferEventData) (l : Ledger) :
    (process_transfer_event receivers env ev l).ledger = l ∨
    ∃ rec rc t tb rh,
      receivers.find? (fun r => strLower r.eth_address == strLower (transfer_to_address ev))
          = some rec ∧
      ledgerGet l (bytesToHex ev.transactionHash) = none ∧
      env.recommended_output_amount (intFromBytes ev.data) = some rc ∧
      env.send_usdt rec.tron_address rc = some t ∧
      env.call_intron tb = some rh ∧
      (process_transfer_event receivers env ev l).effects.payouts = [⟨rec.tron_address, rc⟩] ∧
      (process_transfer_event receivers env ev l).ledger =
        l ++ [⟨rh, some t, toString (intFromBytes ev.data), ev.address,
               IntentSource.receiver, false⟩] := by
  unfold process_transfer_event
  split
  · exact Or.inl rfl
  · rename_i receiver hrec
    split
    · exact Or.inl rfl
    · rename_i hget
      split
      · exact Or.inl rfl
      · rename_i rc hrc
        split
        · exact Or.inl rfl
        · rename_i t hsend
          split
          · exact Or.inl rfl
          · exact Or.inl rfl
          · rename_i tb hdec
            split
            · exact Or.inl rfl
            · split
              · exact Or.inl rfl
              · rename_i rh hintron
                exact Or.inr ⟨receiver, rc, t, tb, rh, hrec, hget, hrc, hsend,
                  hintron, rfl, rfl⟩

/-- Exhaustive outcome analysis of the order path, one disjunct per
reachable branch of `process_order_created_event`. -/
lemma process_order_created_event_spec (chain : ChainConfig) (env : OrderEnv)
    (ev : OrderCreatedEventData) (l : Ledger) :
    (∃ row, ledgerGet l (bytesToHex ev.transactionHash) = some row ∧
      row.source = IntentSource.receiver ∧ row.is_claimed = true ∧
      process_order_created_event chain env ev l = ⟨l, some true, noEffects⟩) ∨
    (∃ row h, ledgerGet l (bytesToHex ev.transactionHash) = some row ∧
      row.source = IntentSource.receiver ∧ row.is_claimed = false ∧
      env.claim_order ev.order.orderId = some h ∧
      process_order_created_event chain env ev l =
        ⟨ledgerSetClaimed l (bytesToHex ev.transactionHash), some true,
          ⟨[], [], [ev.order.orderId]⟩⟩) ∨
    (∃ row, ledgerGet l (bytesToHex ev.transactionHash) = some row ∧
      row.source = IntentSource.receiver ∧ row.is_claimed = false ∧
      env.claim_order ev.order.orderId = none ∧
      process_order_created_event chain env ev l =
        ⟨l, some true, ⟨[], [], [ev.order.orderId]⟩⟩) ∨
    (∃ row, ledgerGet l (bytesToHex ev.transactionHash) = some row ∧
      row.source = IntentSource.order ∧
      process_order_created_event chain env ev l = ⟨l, some true, noEffects⟩) ∨
    (ledgerGet l (bytesToHex ev.transactionHash) = none ∧
      is_profitable chain ev.order.token ev.order.inputAmount ev.order.outputAmount = false ∧
      process_order_created_event chain env ev l = ⟨l, some false, noEffects⟩) ∨
    (ledgerGet l (bytesToHex ev.transactionHash) = none ∧
      is_profitable chain ev.order.token ev.order.inputAmount ev.order.outputAmount = true ∧
      env.send_usdt (eth_address_to_tron env.b58encode_check ev.order.toAddr)
          ev.order.outputAmount = none ∧
      process_order_created_event chain env ev l =
        ⟨l, some false,
          ⟨[⟨eth_address_to_tron env.b58encode_check ev.order.toAddr,
             ev.order.outputAmount⟩], [], []⟩⟩) ∨
    (∃ t, ledgerGet l (bytesToHex ev.transactionHash) = none ∧
      is_profitable chain ev.order.token ev.order.inputAmount ev.order.outputAmount = true ∧
      env.send_usdt (eth_address_to_tron env.b58encode_check ev.order.toAddr)
          ev.order.outputAmount = some t ∧
      env.claim_order ev.order.orderId = none ∧
      process_order_created_event chain env ev l =
        ⟨l ++ [⟨bytesToHex ev.transactionHash, some t, toString ev.order.inputAmount,
               ev.order.token, IntentSource.order, false⟩],
          some false,
          ⟨[⟨eth_address_to_tron env.b58encode_check ev.order.toAddr,
             ev.order.outputAmount⟩], [], [ev.order.orderId]⟩⟩) ∨
    (∃ t h, ledgerGet l (bytesToHex ev.transactionHash) = none ∧
      is_profitable chain ev.order.token ev.order.inputAmount ev.order.outputAmount = true ∧
      env.send_usdt (eth_address_to_tron env.b58encode_check ev.order.toAddr)
          ev.order.outputAmount = some t ∧
      env.claim_order ev.order.orderId = some h ∧
      process_order_created_event chain env ev l =
        ⟨ledgerSetClaimed
            (l ++ [⟨bytesToHex ev.transactionHash, some t, toString ev.order.inputAmount,
                    ev.order.token, IntentSource.order, false⟩])
            (bytesToHex ev.transactionHash),
          some true,
          ⟨[⟨eth_address_to_tron env.b58encode_check ev.order.toAddr,
             ev.order.outputAmount⟩], [], [ev.order.orderId]⟩⟩) := by
  unfold process_order_created_event
  split
  · rename_i existing hget
    split
    · rename_i hsource
      split
      · rename_i hclaimed
        exact Or.inl ⟨existing, hget, hsource, hclaimed, rfl⟩
      · rename_i hnc
        split
        · rename_i h hclaim
          exact Or.inr (Or.inl ⟨existing, h, hget, hsource,
            bool_eq_false_of_not_true hnc, hclaim, rfl⟩)
        · rename_i hclaim
          exact Or.inr (Or.inr (Or.inl ⟨existing, hget, hsource,
            bool_eq_false_of_not_true hnc, hclaim, rfl⟩))
    · rename_i hsource
      exact Or.inr (Or.inr (Or.inr (Or.inl ⟨existing, hget, hsource, rfl⟩)))
  · rename_i hget
    split
    · rename_i hnp
      exact Or.inr (Or.inr (Or.inr (Or.inr (Or.inl
        ⟨hget, bool_eq_false_of_not_true hnp, rfl⟩))))
    · rename_i hp
      have hp' : is_profitable chain ev.order.token ev.order.inputAmount
          ev.order.outputAmount = true := Decidable.of_not_not hp
      split
      · rename_i hsend
        exact Or.inr (Or.inr (Or.inr (Or.inr (Or.inr (Or.inl ⟨hget, hp', hsend, rfl⟩)))))
      · rename_i t hsend
        split
        · rename_i h hclaim
          exact Or.inr (Or.inr (Or.inr (Or.inr (Or.inr (Or.inr (Or.inr
            ⟨t, h, hget, hp', hsend, hclaim, rfl⟩))))))
        · rename_i hclaim
          exact Or.inr (Or.inr (Or.inr (Or.inr (Or.inr (Or.inr (Or.inl
            ⟨t, hget, hp', hsend, hclaim, rfl⟩))))))

/-! ## Claims C4, C6: the profitability gate -/

/-- Claim C4: `is_profitable(chain, token_address, input, output)` is
true exactly when the token address matches (case-insensitively) a
configured token of the chain and
`input ≥ output + static_fee + output * percentage_fee_bps / 10000` in
integer arithmetic, the fees taken from the matched token; a token
matching no configured address is never profitable.  The embedded
function is pure, mirroring a source function whose only side effect is
logging. -/
theorem c4_profitability_gate (chain : ChainConfig) (token_address : String)
    (input_amount output_amount : Nat) :
    (is_profitable chain token_address input_amount output_amount = true ↔
      ∃ tc, findTokenConfig chain token_address = some tc ∧
        output_amount + (tc.static_fee + output_amount * tc.percentage_fee_bps / 10000)
          ≤ input_amount) ∧
    ((∀ st ∈ chain.tokens, strLower st.2.address ≠ strLower token_address) →
      is_profitable chain token_address input_amount output_amount = false) := by
  constructor
  · constructor
    · intro hp
      cases htc : findTokenConfig chain token_address with
      | none =>
        rw [is_profitable_eq_of_find_none htc] at hp
        cases hp
      | some tc =>
        refine ⟨tc, rfl, ?_⟩
        rw [is_profitable_eq_of_find htc] at hp
        exact of_decide_eq_true hp
    · rintro ⟨tc, htc, hle⟩
      rw [is_profitable_eq_of_find htc]
      exact decide_eq_true hle
  · intro hall
    have hfind : chain.tokens.find?
        (fun st => strLower st.2.address == strLower token_address) = none := by
      rw [List.find?_eq_none]
      intro st hst
      simpa using hall st hst
    have hnone : findTokenConfig chain token_address = none := by
      simp [findTokenConfig, hfind]
    exact is_profitable_eq_of_find_none hnone input_amount output_amount

/-- Claim C4 witness: a token address matching no configured token of
`c4Chain` is rejected. -/
theorem c4_profitability_gate_witness :
    is_profitable c4Chain "0xdef" 1000 900 = false :=
  (c4_profitability_gate c4Chain "0xdef" 1000 900).2 (by decide)

/-- Claim C6: for a fixed fee schedule and a configured token, raising
the input amount preserves profitability, and raising the output amount
preserves unprofitability. -/
theorem c6_profitability_monotonic (chain : ChainConfig) (token_address : String)
    (tc : TokenConfig) (htc : findTokenConfig chain token_address = some tc) :
    (∀ a a' b : Nat, a ≤ a' →
      is_profitable chain token_address a b = true →
      is_profitable chain token_address a' b = true) ∧
    (∀ i b b' : Nat, b ≤ b' →
      is_profitable chain token_address i b = false →
      is_profitable chain token_address i b' = false) := by
  constructor
  · intro a a' b hle hp
    rw [is_profitable_eq_of_find htc] at hp ⊢
    exact decide_eq_true (le_trans (of_decide_eq_true hp) hle)
  · intro i b b' hle hp
    rw [is_profitable_eq_of_find htc] at hp ⊢
    rw [decide_eq_false_iff_not] at hp ⊢
    intro hc
    apply hp
    have hdiv : b * tc.percentage_fee_bps / 10000 ≤ b' * tc.percentage_fee_bps / 10000 :=
      Nat.div_le_div_right (Nat.mul_le_mul_right _ hle)
    calc b + (tc.static_fee + b * tc.percentage_fee_bps / 10000)
        ≤ b' + (tc.static_fee + b' * tc.percentage_fee_bps / 10000) :=
          Nat.add_le_add hle (Nat.add_le_add_left hdiv _)
      _ ≤ i := hc

/-- Claim C6 witness: on `c6Chain` (flat 50, 100 bps), input 1000 and
output 900 are profitable so input 1001 is too; output 960 is
unprofitable at input 1000 so output 961 is too. -/
theorem c6_profitability_monotonic_witness :
    is_profitable c6Chain "0xa" 1001 900 = true ∧
    is_profitable c6Chain "0xa" 1000 961 = false := by
  have h := c6_profitability_monotonic c6Chain "0xa" ⟨"0xa", 50, 100⟩ (by decide)
  exact ⟨h.1 1000 1001 900 (by decide) (by decide),
         h.2 1000 960 961 (by decide) (by decide)⟩

/-! ## Claim C1: idempotency of the Intent Processor -/

/-- Claim C1 counterexample: on the transfer-to-receiver path the claim
fails.  A transfer log (hash `0xbb`) is fully processed — Tron payout,
`intron`, one ledger row — but the row is keyed by the `intron`
receipt's hash `"cc"`, not by the triggering hash `"bb"`; replaying the
very same log therefore finds no record keyed by the triggering
transaction hash, dispatches a second Tron payout of the same 995000,
and inserts a second row. -/
theorem c1_idempotency_counterexample :
    ledgerGet (process_transfer_event [c1Receiver] c1EnvA c1Event []).ledger
        (bytesToHex c1Event.transactionHash) = none ∧
    (process_transfer_event [c1Receiver] c1EnvA c1Event []).effects.payouts
      = [⟨"TReceiverAddr", 995000⟩] ∧
    (process_transfer_event [c1Receiver] c1EnvA c1Event []).ledger.length = 1 ∧
    (process_transfer_event [c1Receiver] c1EnvB c1Event
        (process_transfer_event [c1Receiver] c1EnvA c1Event []).ledger).effects.payouts
      = [⟨"TReceiverAddr", 995000⟩] ∧
    (process_transfer_event [c1Receiver] c1EnvB c1Event
        (process_transfer_event [c1Receiver] c1EnvA c1Event []).ledger).ledger.length
      = 2 := by
  refine ⟨?_, ?_, ?_, ?_, ?_⟩ <;> decide

/-- Claim C1 (amended): idempotency holds on the order-created path —
once a fresh, profitable order with a successful payout is processed,
exactly one row keyed by the triggering transaction hash exists, and
reprocessing the same log (under any external world) finds that record
and stops without dispatching anything.  On the transfer path the
inserted row is keyed by the `intron` call's own transaction hash, so a
replay is stopped (ledger untouched, nothing dispatched) only when a
row keyed by the triggering transfer hash happens to exist. -/
theorem c1_idempotency_amended (chain : ChainConfig) (envA envB : OrderEnv)
    (ev : OrderCreatedEventData) (l : Ledger) (t : String)
    (h0 : ledgerGet l (bytesToHex ev.transactionHash) = none)
    (hprof : is_profitable chain ev.order.token ev.order.inputAmount
        ev.order.outputAmount = true)
    (hpay : envA.send_usdt (eth_address_to_tron envA.b58encode_check ev.order.toAddr)
        ev.order.outputAmount = some t) :
    ledgerCountKey (process_order_created_event chain envA ev l).ledger
        (bytesToHex ev.transactionHash) = 1 ∧
    process_order_created_event chain envB ev
        (process_order_created_event chain envA ev l).ledger
      = ⟨(process_order_created_event chain envA ev l).ledger, some true, noEffects⟩ ∧
    (∀ (receivers : List Receiver) (tenv : TransferEnv) (tev : TransferEventData)
        (l' : Ledger) (row : ProcessedIntent),
      ledgerGet l' (bytesToHex tev.transactionHash) = some row →
      (process_transfer_event receivers tenv tev l').ledger = l' ∧
      (process_transfer_event receivers tenv tev l').effects = noEffects) := by
  rcases process_order_created_event_spec chain envA ev l with
    ⟨row, hg, _⟩ | ⟨row, h, hg, _⟩ | ⟨row, hg, _⟩ | ⟨row, hg, _⟩
    | ⟨_, hnp, _⟩ | ⟨_, _, hsend, _⟩ | ⟨t', hg, hp, hsend, hclaim, hr⟩
    | ⟨t', h', hg, hp, hsend, hclaim, hr⟩
  · rw [h0] at hg; cases hg
  · rw [h0] at hg; cases hg
  · rw [h0] at hg; cases hg
  · rw [h0] at hg; cases hg
  · rw [hprof] at hnp; cases hnp
  · rw [hpay] at hsend; cases hsend
  · refine ⟨?_, ?_, ?_⟩
    · simp only [hr]
      rw [ledgerCountKey_append, ledgerCountKey_of_get_none h0,
        ledgerCountKey_singleton_pos (beq_self_eq_true _)]
    · have hget2 : ledgerGet (l ++ [⟨bytesToHex ev.transactionHash, some t',
          toString ev.order.inputAmount, ev.order.token, IntentSource.order, false⟩])
          (bytesToHex ev.transactionHash)
          = some ⟨bytesToHex ev.transactionHash, some t', toString ev.order.inputAmount,
              ev.order.token, IntentSource.order, false⟩ :=
        (ledgerGet_append_none _ h0).trans (ledgerGet_singleton (beq_self_eq_true _))
      simp only [hr]
      exact order_replay_noop chain envB ev _ _ hget2 rfl
    · intro receivers tenv tev l' row hrow
      exact transfer_replay_stop receivers tenv tev l' row hrow
  · refine ⟨?_, ?_, ?_⟩
    · simp only [hr]
      rw [ledgerCountKey_setClaimed, ledgerCountKey_append, ledgerCountKey_of_get_none h0,
        ledgerCountKey_singleton_pos (beq_self_eq_true _)]
    · have hsc : ledgerSetClaimed
          (l ++ [⟨bytesToHex ev.transactionHash, some t', toString ev.order.inputAmount,
                  ev.order.token, IntentSource.order, false⟩])
          (bytesToHex ev.transactionHash)
          = l ++ [⟨bytesToHex ev.transactionHash, some t', toString ev.order.inputAmount,
                   ev.order.token, IntentSource.order, true⟩] := by
        rw [ledgerSetClaimed_append, ledgerSetClaimed_of_get_none h0,
          ledgerSetClaimed_singleton (beq_self_eq_true _)]
      have hget2 : ledgerGet (ledgerSetClaimed
          (l ++ [⟨bytesToHex ev.transactionHash, some t', toString ev.order.inputAmount,
                  ev.order.token, IntentSource.order, false⟩])
          (bytesToHex ev.transactionHash)) (bytesToHex ev.transactionHash)
          = some ⟨bytesToHex ev.transactionHash, some t', toString ev.order.inputAmount,
              ev.order.token, IntentSource.order, true⟩ := by
        rw [hsc]
        exact (ledgerGet_append_none _ h0).trans (ledgerGet_singleton (beq_self_eq_true _))
      simp only [hr]
      exact order_replay_noop chain envB ev _ _ hget2 rfl
    · intro receivers tenv tev l' row hrow
      exact transfer_replay_stop receivers tenv tev l' row hrow

/-- Claim C1 witness: the amended idempotency at the concrete C1 order
scenario (fresh profitable order, payout hash `"tronpay1"`). -/
theorem c1_idempotency_amended_witness :
    ledgerCountKey (process_order_created_event c1Chain c1OrderEnvA c1OrderEvent []).ledger
        (bytesToHex c1OrderEvent.transactionHash) = 1 ∧
    process_order_created_event c1Chain c1OrderEnvB c1OrderEvent
        (process_order_created_event c1Chain c1OrderEnvA c1OrderEvent []).ledger
      = ⟨(process_order_created_event c1Chain c1OrderEnvA c1OrderEvent []).ledger,
          some true, noEffects⟩ := by
  have h := c1_idempotency_amended c1Chain c1OrderEnvA c1OrderEnvB c1OrderEvent [] "tronpay1"
    (by decide) (by decide) (by decide)
  exact ⟨h.1, h.2.1⟩

/-! ## Claim C2: order-path claim retry -/

/-- Claim C2 counterexample: after an order whose payout succeeded but
whose claim failed (row `source = order`, `is_claimed = false`),
reprocessing the same OrderCreated log does NOT retry the claim: the
run dispatches no claim call and no payout, and the row stays
unclaimed, even under an external world where the claim would now
succeed.  The claim-retry reconciliation branch fires only for
`source = receiver` rows. -/
theorem c2_claim_retry_counterexample :
    (process_order_created_event c2Chain c2EnvFail c2OrderEvent []).ledger
      = [⟨bytesToHex c2OrderEvent.transactionHash, some "tronpayc2", "1000", "0xa",
          IntentSource.order, false⟩] ∧
    (process_order_created_event c2Chain c2EnvOk c2OrderEvent
        (process_order_created_event c2Chain c2EnvFail c2OrderEvent []).ledger).effects.claims
      = [] ∧
    (process_order_created_event c2Chain c2EnvOk c2OrderEvent
        (process_order_created_event c2Chain c2EnvFail c2OrderEvent []).ledger).effects.payouts
      = [] ∧
    (ledgerGet (process_order_created_event c2Chain c2EnvOk c2OrderEvent
        (process_order_created_event c2Chain c2EnvFail c2OrderEvent []).ledger).ledger
        (bytesToHex c2OrderEvent.transactionHash)).map ProcessedIntent.is_claimed
      = some false := by
  refine ⟨?_, ?_, ?_, ?_⟩ <;> decide

/-- Claim C2 (amended): when the ledger holds a row keyed by the
triggering transaction hash with `source = order` — in particular the
unclaimed row left by a payout-succeeded/claim-failed run —
reprocessing the same OrderCreated log treats the order as already
handled: no second Tron payout, but also no claim retry and no ledger
change; `is_claimed` stays false forever on this path. -/
theorem c2_claim_retry_amended (chain : ChainConfig) (env : OrderEnv)
    (ev : OrderCreatedEventData) (l : Ledger) (row : ProcessedIntent)
    (h : ledgerGet l (bytesToHex ev.transactionHash) = some row)
    (hs : row.source = IntentSource.order) :
    process_order_created_event chain env ev l = ⟨l, some true, noEffects⟩ :=
  order_replay_noop chain env ev l row h hs

/-- Claim C2 witness: the amended statement at the concrete C2 scenario
ledger (the row left behind by the failed-claim run). -/
theorem c2_claim_retry_amended_witness :
    process_order_created_event c2Chain c2EnvOk c2OrderEvent
        [⟨bytesToHex c2OrderEvent.transactionHash, some "tronpayc2", "1000", "0xa",
          IntentSource.order, false⟩]
      = ⟨[⟨bytesToHex c2OrderEvent.transactionHash, some "tronpayc2", "1000", "0xa",
          IntentSource.order, false⟩], some true, noEffects⟩ :=
  c2_claim_retry_amended c2Chain c2EnvOk c2OrderEvent _
    ⟨bytesToHex c2OrderEvent.transactionHash, some "tronpayc2", "1000", "0xa",
      IntentSource.order, false⟩ (by decide) (by decide)

/-! ## Claim C3: ledger write ordering -/

/-- Claim C3: on both Intent Processor paths, a row is inserted (i.e. a
row appears whose primary key was absent before) only after the Tron
payout of that very execution succeeded, and the successful payout's
transaction hash is recorded in the row's `tron_tx_hash`; a dispatched
payout that fails leaves the ledger unchanged; on the transfer path the
inserted row is unclaimed and existing rows are untouched; on the order
path a row is claimed (inserted as claimed, or flipped from unclaimed
to claimed) only when the EVM claim call of that execution returned
success. -/
theorem c3_ledger_write_ordering :
    (∀ (receivers : List Receiver) (env : TransferEnv) (ev : TransferEventData)
        (l : Ledger) (p : TronPayout),
      p ∈ (process_transfer_event receivers env ev l).effects.payouts →
      env.send_usdt p.to_address p.amount = none →
      (process_transfer_event receivers env ev l).ledger = l) ∧
    (∀ (receivers : List Receiver) (env : TransferEnv) (ev : TransferEventData)
        (l : Ledger) (row : ProcessedIntent),
      row ∈ (process_transfer_event receivers env ev l).ledger → row ∉ l →
      row.is_claimed = false ∧
      ∃ p t, (process_transfer_event receivers env ev l).effects.payouts = [p] ∧
        env.send_usdt p.to_address p.amount = some t ∧ row.tron_tx_hash = some t) ∧
    (∀ (receivers : List Receiver) (env : TransferEnv) (ev : TransferEventData)
        (l : Ledger) (key : String) (row : ProcessedIntent),
      ledgerGet l key = some row →
      ledgerGet (process_transfer_event receivers env ev l).ledger key = some row) ∧
    (∀ (chain : ChainConfig) (env : OrderEnv) (ev : OrderCreatedEventData)
        (l : Ledger) (p : TronPayout),
      p ∈ (process_order_created_event chain env ev l).effects.payouts →
      env.send_usdt p.to_address p.amount = none →
      (process_order_created_event chain env ev l).ledger = l) ∧
    (∀ (chain : ChainConfig) (env : OrderEnv) (ev : OrderCreatedEventData)
        (l : Ledger) (row : ProcessedIntent),
      row ∈ (process_order_created_event chain env ev l).ledger →
      ledgerGet l row.eth_tx_hash = none →
      (∃ p t, (process_order_created_event chain env ev l).effects.payouts = [p] ∧
        env.send_usdt p.to_address p.amount = some t ∧ row.tron_tx_hash = some t) ∧
      (row.is_claimed = true → ∃ h, env.claim_order ev.order.orderId = some h)) ∧
    (∀ (chain : ChainConfig) (env : OrderEnv) (ev : OrderCreatedEventData)
        (l : Ledger) (key : String) (row row' : ProcessedIntent),
      ledgerGet l key = some row → row.is_claimed = false →
      ledgerGet (process_order_created_event chain env ev l).ledger key = some row' →
      row'.is_claimed = true →
      ∃ h, env.claim_order ev.order.orderId = some h) := by
  refine ⟨?_, ?_, ?_, ?_, ?_, ?_⟩
  · -- transfer: a dispatched payout that failed leaves the ledger unchanged
    intro receivers env ev l p hp hnone
    rcases process_transfer_event_spec receivers env ev l with hl
      | ⟨rec, rc, t, tb, rh, hrec, hg, hro, hsend, hint, hpay, hled⟩
    · exact hl
    · rw [hpay] at hp
      have hpe := List.mem_singleton.mp hp
      subst hpe
      exact Option.noConfusion (hsend.symm.trans hnone)
  · -- transfer: a fresh row implies payout success, hash recorded, unclaimed
    intro receivers env ev l row hmem hnot
    rcases process_transfer_event_spec receivers env ev l with hl
      | ⟨rec, rc, t, tb, rh, hrec, hg, hro, hsend, hint, hpay, hled⟩
    · rw [hl] at hmem
      exact absurd hmem hnot
    · rw [hled] at hmem
      rcases List.mem_append.mp hmem with h1 | h2
      · exact absurd h1 hnot
      · have hre := List.mem_singleton.mp h2
        subst hre
        exact ⟨rfl, ⟨rec.tron_address, rc⟩, t, hpay, hsend, rfl⟩
  · -- transfer: existing keyed rows are untouched
    intro receivers env ev l key row hk
    rcases process_transfer_event_spec receivers env ev l with hl
      | ⟨rec, rc, t, tb, rh, hrec, hg, hro, hsend, hint, hpay, hled⟩
    · rw [hl]; exact hk
    · rw [hled]; exact ledgerGet_append_left _ hk
  · -- order: a dispatched payout that failed leaves the ledger unchanged
    intro chain env ev l p hp hnone
    rcases process_order_created_event_spec chain env ev l with
      ⟨row, hg, hso, hcl, hr⟩ | ⟨row, h, hg, hso, hcl, hclm, hr⟩
      | ⟨row, hg, hso, hcl, hclm, hr⟩ | ⟨row, hg, hso, hr⟩
      | ⟨hg, hnp, hr⟩ | ⟨hg, hp', hsend, hr⟩
      | ⟨t, hg, hp', hsend, hclm, hr⟩ | ⟨t, h, hg, hp', hsend, hclm, hr⟩
    · rw [hr] at hp; cases hp
    · rw [hr] at hp; cases hp
    · rw [hr] at hp; cases hp
    · rw [hr] at hp; cases hp
    · rw [hr] at hp; cases hp
    · rw [hr]
    · rw [hr] at hp
      have hpe := List.mem_singleton.mp hp
      subst hpe
      exact Option.noConfusion (hsend.symm.trans hnone)
    · rw [hr] at hp
      have hpe := List.mem_singleton.mp hp
      subst hpe
      exact Option.noConfusion (hsend.symm.trans hnone)
  · -- order: a fresh-keyed row implies payout success and claim gating
    intro chain env ev l row hmem hfresh
    rcases process_order_created_event_spec chain env ev l with
      ⟨row0, hg, hso, hcl, hr⟩ | ⟨row0, h, hg, hso, hcl, hclm, hr⟩
      | ⟨row0, hg, hso, hcl, hclm, hr⟩ | ⟨row0, hg, hso, hr⟩
      | ⟨hg, hnp, hr⟩ | ⟨hg, hp', hsend, hr⟩
      | ⟨t, hg, hp', hsend, hclm, hr⟩ | ⟨t, h, hg, hp', hsend, hclm, hr⟩
    · rw [hr] at hmem
      exact absurd hfresh (ledgerGet_ne_none_of_mem hmem)
    · rw [hr] at hmem
      rcases List.mem_map.mp hmem with ⟨x, hx, hfx⟩
      have hkey : row.eth_tx_hash = x.eth_tx_hash := by
        rw [← hfx]; exact setClaimed_key_preserved x _
      rw [hkey] at hfresh
      exact absurd hfresh (ledgerGet_ne_none_of_mem hx)
    · rw [hr] at hmem
      exact absurd hfresh (ledgerGet_ne_none_of_mem hmem)
    · rw [hr] at hmem
      exact absurd hfresh (ledgerGet_ne_none_of_mem hmem)
    · rw [hr] at hmem
      exact absurd hfresh (ledgerGet_ne_none_of_mem hmem)
    · rw [hr] at hmem
      exact absurd hfresh (ledgerGet_ne_none_of_mem hmem)
    · rw [hr] at hmem
      rcases List.mem_append.mp hmem with h1 | h2
      · exact absurd hfresh (ledgerGet_ne_none_of_mem h1)
      · have hre := List.mem_singleton.mp h2
        subst hre
        refine ⟨⟨⟨eth_address_to_tron env.b58encode_check ev.order.toAddr,
          ev.order.outputAmount⟩, t, hr ▸ rfl, hsend, rfl⟩, ?_⟩
        intro habs
        exact Bool.noConfusion habs
    · rw [hr, ledgerSetClaimed_append_fresh hg (beq_self_eq_true _)] at hmem
      rcases List.mem_append.mp hmem with h1 | h2
      · exact absurd hfresh (ledgerGet_ne_none_of_mem h1)
      · have hre := List.mem_singleton.mp h2
        subst hre
        refine ⟨⟨⟨eth_address_to_tron env.b58encode_check ev.order.toAddr,
          ev.order.outputAmount⟩, t, hr ▸ rfl, hsend, rfl⟩, ?_⟩
        intro _
        exact ⟨h, hclm⟩
  · -- order: a false-to-true flip implies the claim call succeeded
    intro chain env ev l key row row' hget hfalse hget' htrue
    rcases process_order_created_event_spec chain env ev l with
      ⟨row0, hg, hso, hcl, hr⟩ | ⟨row0, h, hg, hso, hcl, hclm, hr⟩
      | ⟨row0, hg, hso, hcl, hclm, hr⟩ | ⟨row0, hg, hso, hr⟩
      | ⟨hg, hnp, hr⟩ | ⟨hg, hp', hsend, hr⟩
      | ⟨t, hg, hp', hsend, hclm, hr⟩ | ⟨t, h, hg, hp', hsend, hclm, hr⟩
    · rw [hr] at hget'
      have := (hget.symm.trans hget')
      have hrr : row = row' := Option.some.inj this
      rw [← hrr] at htrue
      rw [hfalse] at htrue
      cases htrue
    · exact ⟨h, hclm⟩
    · rw [hr] at hget'
      have hrr : row = row' := Option.some.inj (hget.symm.trans hget')
      rw [← hrr] at htrue
      rw [hfalse] at htrue
      cases htrue
    · rw [hr] at hget'
      have hrr : row = row' := Option.some.inj (hget.symm.trans hget')
      rw [← hrr] at htrue
      rw [hfalse] at htrue
      cases htrue
    · rw [hr] at hget'
      have hrr : row = row' := Option.some.inj (hget.symm.trans hget')
      rw [← hrr] at htrue
      rw [hfalse] at htrue
      cases htrue
    · rw [hr] at hget'
      have hrr : row = row' := Option.some.inj (hget.symm.trans hget')
      rw [← hrr] at htrue
      rw [hfalse] at htrue
      cases htrue
    · rw [hr] at hget'
      rw [ledgerGet_append_left _ hget] at hget'
      have hrr : row = row' := Option.some.inj hget'
      rw [← hrr] at htrue
      rw [hfalse] at htrue
      cases htrue
    · exact ⟨h, hclm⟩

/-- Claim C3 witness: at the concrete C1 transfer scenario with a
failing Tron payout, the theorem yields that the ledger stays empty. -/
theorem c3_ledger_write_ordering_witness :
    (process_transfer_event [c1Receiver] c3EnvPayoutFail c1Event []).ledger = [] :=
  c3_ledger_write_ordering.1 [c1Receiver] c3EnvPayoutFail c1Event []
    ⟨"TReceiverAddr", 995000⟩ (by decide) (by decide)

/-! ## Claim C5: watermark safety of the chunk loop -/

/-- Claim C5 counterexample: with watermark 10, cursor 11, chain head
2000 and chunk size 1000, a chunk whose `OrderCreated` fetch raised
(`order_fetch = none`, silently replaced by the empty list) still
completes its body, dispatches nothing, and advances the persisted
watermark from 10 to 1010 — the watermark does advance past a chunk
whose log fetch failed, contradicting the claim. -/
theorem c5_watermark_counterexample :
    c5Env.order_fetch = none ∧
    poll_chunk_step true c5Env ⟨10, 11⟩ 2000 1000
      = ⟨⟨1010, 1011⟩, []⟩ ∧
    (10 : Nat) < 1010 := by
  refine ⟨?_, ?_, ?_⟩ <;> decide

/-- Claim C5 (amended): in each chunk iteration with loop invariant
`last_block < from_block ≤ current_block` and positive chunk size, the
watermark moves only when the chunk body ran to completion, and then
monotonically to exactly the chunk's ending block
`min(from_block + chunk_size - 1, current_block)` with the cursor just
past it; if the chunk body throws, watermark and cursor are unchanged,
so the same chunk is reprocessed.  A failed log fetch inside the chunk,
however, is swallowed as an empty result and does not stop the
watermark from advancing past that chunk. -/
theorem c5_watermark_amended (receivers_known : Bool) (env : ChunkEnv)
    (last_block from_block current_block chunk_size : Nat)
    (h1 : last_block < from_block) (h2 : from_block ≤ current_block)
    (h3 : 1 ≤ chunk_size) :
    (env.body_ok = true →
      (poll_chunk_step receivers_known env ⟨last_block, from_block⟩
          current_block chunk_size).state.last_block
        = min (from_block + chunk_size - 1) current_block ∧
      last_block < (poll_chunk_step receivers_known env ⟨last_block, from_block⟩
          current_block chunk_size).state.last_block ∧
      (poll_chunk_step receivers_known env ⟨last_block, from_block⟩
          current_block chunk_size).state.from_block
        = (poll_chunk_step receivers_known env ⟨last_block, from_block⟩
            current_block chunk_size).state.last_block + 1) ∧
    (env.body_ok = false →
      (poll_chunk_step receivers_known env ⟨last_block, from_block⟩
          current_block chunk_size).state = ⟨last_block, from_block⟩ ∧
      (poll_chunk_step receivers_known env ⟨last_block, from_block⟩
          current_block chunk_size).dispatched = []) := by
  constructor
  · intro hb
    unfold poll_chunk_step
    rw [hb]
    refine ⟨rfl, ?_, rfl⟩
    show last_block < min (from_block + chunk_size - 1) current_block
    omega
  · intro hb
    unfold poll_chunk_step
    rw [hb]
    exact ⟨rfl, rfl⟩

/-- Claim C5 witness: the amended statement at the concrete successful
chunk (watermark 10, cursor 11, head 2000, chunk size 1000). -/
theorem c5_watermark_amended_witness :
    (poll_chunk_step true c5EnvOk ⟨10, 11⟩ 2000 1000).state.last_block = 1010 ∧
    (poll_chunk_step true c5EnvOk ⟨10, 11⟩ 2000 1000).state.from_block = 1011 := by
  have h := (c5_watermark_amended true c5EnvOk 10 11 2000 1000
    (by decide) (by decide) (by decide)).1 (by decide)
  refine ⟨?_, ?_⟩
  · rw [h.1]; decide
  · rw [h.2.2, h.1]; decide

/-! ## Claim C7: /resolve wire-format preservation -/

/-- Claim C7: on every decoded wire payload
`[length byte][subdomain bytes][suffix]`, a success response of the
resolve handler is exactly the same length byte, followed by the
canonical-case address computed by `process_case_fix` for the
lower-cased subdomain, followed by the suffix unchanged; and when a
`CaseFix` row for the lower-cased subdomain is already cached, the
returned address is the cached original and the external case-fix
subprocess is not invoked. -/
theorem c7_resolve_wire_format (env : ResolveEnv) (cache : List CaseFixRow)
    (subdomain_length : Nat) (rest : Bytes) (payload : Bytes) :
    ((resolve_domain env cache (subdomain_length :: rest)).outcome
        = ResolveOutcome.success payload →
      payload = subdomain_length ::
        (process_case_fix cache env.binary ((rest.take subdomain_length).map byteLower)).result
        ++ rest.drop subdomain_length) ∧
    (∀ row, cache.find? (fun r => r.lowercase ==
          (rest.take subdomain_length).map byteLower) = some row →
      (process_case_fix cache env.binary ((rest.take subdomain_length).map byteLower)).result
          = row.original ∧
      (resolve_domain env cache (subdomain_length :: rest)).invoked = false) := by
  constructor
  · intro hs
    simp only [resolve_domain] at hs
    split at hs
    · exact absurd hs (by simp)
    · split at hs
      · exact absurd hs (by simp)
      · split at hs
        · exact absurd hs (by simp)
        · have h : ResolveOutcome.success (subdomain_length ::
              (process_case_fix cache env.binary
                ((rest.take subdomain_length).map byteLower)).result
              ++ rest.drop subdomain_length) = ResolveOutcome.success payload := hs
          exact (ResolveOutcome.success.inj h).symm
  · intro row hrow
    have hpc : process_case_fix cache env.binary ((rest.take subdomain_length).map byteLower)
        = ⟨row.original, cache, false⟩ := by
      unfold process_case_fix
      rw [hrow]
    constructor
    · rw [hpc]
    · simp only [resolve_domain]
      rw [hpc]
      split
      · rfl
      · split
        · rfl
        · split
          · rfl
          · rfl

/-- Claim C7 witness: spec scenario 1 — the seeded lower-cased address
resolves to the canonical `TEVr7jCiRofduU2wtQsMWLBr1m132A3S5j` inside
the same wire envelope (length byte 34, 3-byte suffix untouched), with
no subprocess invocation. -/
theorem c7_resolve_wire_format_witness :
    ((34 : Nat) :: c7Canonical ++ c7Rest.drop 34) =
      34 :: (process_case_fix [c7Row] c7Env.binary ((c7Rest.take 34).map byteLower)).result
        ++ c7Rest.drop 34 ∧
    (process_case_fix [c7Row] c7Env.binary ((c7Rest.take 34).map byteLower)).result
      = c7Row.original ∧
    (resolve_domain c7Env [c7Row] (34 :: c7Rest)).invoked = false := by
  have h := c7_resolve_wire_format c7Env [c7Row] 34 c7Rest (34 :: c7Canonical ++ c7Rest.drop 34)
  exact ⟨h.1 (by decide), (h.2 c7Row (by decide)).1, (h.2 c7Row (by decide)).2⟩

/-! ## Claim C9: the `lstrip("0x")` hex-decoding defect -/

/-- Claim C9: `domain.lstrip("0x")` removes every leading `'0'` and
`'x'` character, not only the two-character hex marker; on the valid
wire payload `0x006162` (length byte 0, empty subdomain, suffix
`0x61 0x62`) the decode therefore yields `[0x61, 0x62]` instead of the
encoded `[0x00, 0x61, 0x62]`, and the handler mis-extracts both the
subdomain length (97 instead of 0) and the subdomain bytes
(`[0x62]` instead of `[]`). -/
theorem c9_lstrip_misdecodes :
    lstripChars ['0', 'x'] "0x006162".toList ≠ "0x006162".toList.drop 2 ∧
    decodeDomainHex "0x006162" = some [97, 98] ∧
    bytesFromHex ("0x006162".toList.drop 2) = some [0, 97, 98] ∧
    extract_subdomain [97, 98] = (97, [98]) ∧
    extract_subdomain [0, 97, 98] = (0, []) := by
  refine ⟨?_, ?_, ?_, ?_, ?_⟩ <;> decide

/-- Claim C9 witness: the mis-decoded buffer of the concrete input,
extracted from the theorem. -/
theorem c9_lstrip_misdecodes_witness :
    decodeDomainHex "0x006162" = some [97, 98] :=
  c9_lstrip_misdecodes.2.1

/-! ## Claim C10: `validate_tron_address` accepts every in-range string -/

/-- Claim C10: `decode_tron_address` never raises — its catch-all
handler turns any base58 library failure into `None` — so the `except`
branch of `validate_tron_address` is unreachable and every string whose
length lies in `range(25, 35)` validates as `True`, whatever the
base58 check-decode does. -/
theorem c10_validate_accepts_in_range (b58decode_check : String → Except Unit Bytes)
    (tron_address : String)
    (h1 : 25 ≤ tron_address.length) (h2 : tron_address.length < 35) :
    (∃ v, decode_tron_address b58decode_check tron_address = Except.ok v) ∧
    validate_tron_address b58decode_check tron_address = true := by
  constructor
  · cases hb : b58decode_check tron_address with
    | ok bs => exact ⟨some (bs.drop 1), by simp [decode_tron_address, hb]⟩
    | error e => exact ⟨none, by simp [decode_tron_address, hb]⟩
  · have hcond : ¬¬(25 ≤ tron_address.length ∧ tron_address.length < 35) :=
      fun hn => hn ⟨h1, h2⟩
    unfold validate_tron_address
    rw [if_neg hcond]
    cases hb : b58decode_check tron_address with
    | ok bs => simp [decode_tron_address, hb]
    | error e => simp [decode_tron_address, hb]

/-- Claim C10 witness: a 25-character string of `'0'`s — not a valid
base58-check payload, with the library modelled as always raising —
still validates. -/
theorem c10_validate_accepts_in_range_witness :
    validate_tron_address (fun _ => Except.error ()) "0000000000000000000000000" = true :=
  (c10_validate_accepts_in_range (fun _ => Except.error ()) "0000000000000000000000000"
    (by decide) (by decide)).2

end UntronIntents
